import Mathlib

/-!
# Gochip8: a shallow embedding of the CHIP-8 interpreter core

The development embeds `src/main.go` (machine state, fetch, operand decoding,
the sprite routines and `ExecOp`) and `src/pkg/filostack/stack.go` (the bounded
stack) as Lean functions and proves properties of them.

Conventions of the embedding.

* Go's fixed width unsigned integers are natural numbers; every operation that
  can leave the width is followed by an explicit reduction (`u8`, `u16`, `u64`).
* Go arrays are total functions `Nat → Nat`; every Go index expression is guarded
  by the array length (`4000`, `32`, `16`) and an index outside the array is the
  run-time panic of Go, modelled as `none`.
* Go's operator precedence is made explicit with parentheses: `*  /  %  <<  >>  &`
  share one precedence level and associate to the left, `+  -  |  ^` bind weaker,
  comparisons weaker still.
* `fmt.Println` only writes to standard output and is left out.
-/

namespace Gochip8

/-! ## Fixed width arithmetic -/

/-- Conversion to `uint8`. -/
def u8 (n : Nat) : Nat := n % 256

/-- Conversion to `uint16`. -/
def u16 (n : Nat) : Nat := n % 65536

/-- Conversion to `uint64`. -/
def u64 (n : Nat) : Nat := n % 2 ^ 64

/-- Subtraction `a - b` of two `uint8` values, wrapping around. -/
def sub8 (a b : Nat) : Nat := (a + 256 - b) % 256

/-- Subtraction `a - b` of two `uint16` values, wrapping around. -/
def sub16 (a b : Nat) : Nat := (a + 65536 - b) % 65536

/-- Bitwise complement `^a` of a `uint8` value. -/
def not8 (a : Nat) : Nat := a ^^^ 0xFF

/-- Bitwise complement `^a` of a `uint64` value. -/
def not64 (a : Nat) : Nat := a ^^^ (2 ^ 64 - 1)

/-- Array update `a[i] = v`. -/
def setAt (a : Nat → Nat) (i v : Nat) : Nat → Nat := fun j => if j = i then v else a j

/-! ## The bounded stack (`src/pkg/filostack/stack.go`) -/

/-- The struct `FiloStack`: a slice of `uint16` (its top is the last element) and an `int` limit. -/
structure FiloStack where
  stack : List Nat
  limit : Int

/-- The method `Push`: the new stack and the returned error (`none` is Go's `nil`). -/
def FiloStack.Push (st : FiloStack) (elem : Nat) : FiloStack × Option String :=
  if (st.stack.length : Int) < st.limit then
    ({ st with stack := st.stack ++ [elem] }, none)
  else
    (st, some "stack error: limit reached")

/-- The method `Pop`: the new stack, the returned element and the returned error. -/
def FiloStack.Pop (st : FiloStack) : FiloStack × Nat × Option String :=
  if st.stack.length > 0 then
    let elem := st.stack.getLastD 0
    ({ st with stack := st.stack.take (st.stack.length - 1) }, elem, none)
  else
    (st, 0, some "stack error: nothing to pop")

/-! ## Machine state (`src/main.go`) -/

/-- The struct `chip8`. `mem` has 4000 entries, `screen` 32 and `reg` 16.
The field `st` has the type `filoStack` in the source, whose lower-case methods `push`
and `pop` are the methods `Push` and `Pop` of `FiloStack`. The field `inputReader` is
the handle of standard input; what is read from it is an argument of `ExecOp`. -/
structure chip8 where
  mem : Nat → Nat
  screen : Nat → Nat
  reg : Nat → Nat
  ind : Nat
  pc : Nat
  sp : Nat
  soundTimer : Nat
  delayTimer : Nat
  st : FiloStack

/-- The values a state holds are in the range of their Go types. -/
def chip8.WF (system : chip8) : Prop :=
  (∀ i, i < 4000 → system.mem i < 256) ∧
  (∀ i, i < 32 → system.screen i < 2 ^ 64) ∧
  (∀ i, i < 16 → system.reg i < 256) ∧
  system.ind < 65536 ∧ system.pc < 65536 ∧ system.sp < 65536 ∧
  system.soundTimer < 256 ∧ system.delayTimer < 256 ∧
  (∀ e, e ∈ system.st.stack → e < 65536)

/-- The global `blankScreen`, a zero valued `[32]uint64` that is never written. -/
def blankScreen : Nat → Nat := fun _ => 0

/-- What `ExecOp` takes from outside the machine state: the value of `rand.Uint32()`,
the rune delivered on the input channel by `ReadKey`, and whether the call of the
function `issue`, which is not part of the sources, returns. -/
structure Env where
  rand : Nat
  key : Int
  issueReturns : Bool

/-- The method `GetNextOp`; the state is returned with the word since the receiver is a pointer. -/
def GetNextOp (system : chip8) : Option (Nat × chip8) :=
  if system.pc < 4000 ∧ u16 (system.pc + 1) < 4000 then
    some (u16 (u16 (system.mem system.pc <<< 8) + system.mem (u16 (system.pc + 1))), system)
  else none

/-- The method `PasteSpriteLine`. Its shifts `rowVal << (64 - vx)` are `uint8` shifts,
the shift of the constant `0xFF` is a `uint64` shift. -/
def PasteSpriteLine (system : chip8) (vx vy img : Nat) : Option chip8 :=
  let rowMask := u64 (0xFF <<< sub8 64 vx)
  if vy < 32 then
    let rowVal := u8 ((system.screen vy &&& rowMask) >>> sub8 64 vx)
    let system1 :=
      if rowVal ^^^ img ≠ 0 then { system with reg := setAt system.reg 0xF 1 } else system
    let rowVal1 := rowVal ^^^ img
    let rowVal2 := not8 rowVal1
    let row := not64 (u8 (rowVal2 <<< sub8 64 vx))
    some { system1 with screen := setAt system1.screen vy (system1.screen vy &&& row) }
  else none

/-- The body of the loop of `DrawSprite` for the loop counter `i`. -/
def DrawSpriteRow (system : chip8) (x y i : Nat) : Option chip8 :=
  let row := u8 (y + i % 32)
  if x > 64 - 8 then
    let pixelsInBounds := sub8 64 x
    let pixelsOverflow := sub8 8 pixelsInBounds
    if u16 (system.ind + i) < 4000 then
      let overFlowImg := u8 (system.mem (u16 (system.ind + i)) <<< pixelsInBounds)
      let inBoundsImg := u8 (system.mem (u16 (system.ind + i)) >>> pixelsOverflow)
      (PasteSpriteLine system 0 row overFlowImg).bind fun system1 =>
        PasteSpriteLine system1 (64 - 8) row inBoundsImg
    else none
  else
    if u16 (system.ind + i) < 4000 then
      PasteSpriteLine system x row (system.mem (u16 (system.ind + i)))
    else none

/-- The loop `for i := uint8(0); i < h; i++` of `DrawSprite`: the first argument is the
number `h - i` of iterations that are left, the second the loop counter `i`. -/
def DrawSpriteLoop (x y : Nat) : Nat → Nat → chip8 → Option chip8
  | 0, _, system => some system
  | n + 1, i, system => (DrawSpriteRow system x y i).bind (DrawSpriteLoop x y n (i + 1))

/-- The method `DrawSprite`. -/
def DrawSprite (system : chip8) (x y h : Nat) : Option chip8 :=
  DrawSpriteLoop x y h 0 system

/-- The method `SpriteAddr`. -/
def SpriteAddr (char : Nat) : Nat := u16 (u8 ((char &&& 0x000F) * 5))

/-- The function `extractReg`: `uint16(0xF) << x*4` is `(uint16(0xF) << x) * 4` and
`opcode & mask >> x*4` is `((opcode & mask) >> x) * 4` in Go. -/
def extractReg (x : Nat) (opcode : Nat) : Nat :=
  let mask := u16 (u16 (0xF <<< x) * 4)
  u8 (u16 (((opcode &&& mask) >>> x) * 4))

/-- The statement `system.pc += 2`. -/
def advance (system : chip8) : chip8 := { system with pc := u16 (system.pc + 2) }

/-- Case `0x0` of `ExecOp`: the inner switch on `op`, then `system.pc += 2`. The error
that `pop` returns is only printed. -/
def ExecOp0 (system : chip8) (op : Nat) : Option chip8 :=
  let system1 :=
    if op = 0x00E0 then { system with screen := blankScreen }
    else if op = 0x00EE then
      let r := system.st.Pop
      let system2 := { system with st := r.1, pc := r.2.1 }
      { system2 with sp := sub16 system2.sp 1 }
    else system
  some (advance system1)

/-- Case `0x1` of `ExecOp`. -/
def ExecOp1 (system : chip8) (op : Nat) : Option chip8 :=
  some { system with pc := (op &&& 0x0FFF) &&& 0x0FFF }

/-- Case `0x2` of `ExecOp`. The error that `push` returns is dropped. -/
def ExecOp2 (system : chip8) (op : Nat) : Option chip8 :=
  let addr := (op &&& 0x0FFF) &&& 0x0FFF
  let system1 := { system with st := (system.st.Push system.pc).1 }
  let system2 := { system1 with pc := addr }
  some { system2 with sp := u16 (system2.sp + 1) }

/-- Case `0x3` of `ExecOp`. -/
def ExecOp3 (system : chip8) (op : Nat) : Option chip8 :=
  let vx := extractReg 2 op
  let rr := u8 (op &&& 0x00FF)
  if vx < 16 then
    some (advance (if system.reg vx = rr then advance system else system))
  else none

/-- Case `0x4` of `ExecOp`. -/
def ExecOp4 (system : chip8) (op : Nat) : Option chip8 :=
  let vx := extractReg 2 op
  let rr := u8 (op &&& 0x00FF)
  if vx < 16 then
    some (advance (if system.reg vx ≠ rr then advance system else system))
  else none

/-- Case `0x5` of `ExecOp`. -/
def ExecOp5 (system : chip8) (op : Nat) : Option chip8 :=
  let vx := extractReg 2 op
  let vy := extractReg 1 op
  if vx < 16 ∧ vy < 16 then
    some (advance (if system.reg vx = system.reg vy then advance system else system))
  else none

/-- Case `0x6` of `ExecOp`. -/
def ExecOp6 (system : chip8) (op : Nat) : Option chip8 :=
  let vx := extractReg 2 op
  let rr := u8 (op &&& 0x00FF)
  if vx < 16 then
    some (advance { system with reg := setAt system.reg vx rr })
  else none

/-- Case `0x7` of `ExecOp`. -/
def ExecOp7 (system : chip8) (op : Nat) : Option chip8 :=
  let vx := extractReg 2 op
  let rr := u8 (op &&& 0x00FF)
  if vx < 16 then
    some (advance { system with reg := setAt system.reg vx (u8 (system.reg vx + rr)) })
  else none

/-- Case `0x8` of `ExecOp`: the inner switch on `op & 0x000F`, then `system.pc += 2`.
The statements of a case run one after the other, so a later read of `reg` sees the
flag written before it. -/
def ExecOp8 (system : chip8) (op : Nat) : Option chip8 :=
  let vx := extractReg 2 op
  let vy := extractReg 1 op
  let subIns := op &&& 0x000F
  let r : Option chip8 :=
    if subIns = 0x0 then
      if vx < 16 ∧ vy < 16 then
        some { system with reg := setAt system.reg vx (system.reg vy) }
      else none
    else if subIns = 0x1 then
      if vx < 16 ∧ vy < 16 then
        some { system with reg := setAt system.reg vx (system.reg vx ||| system.reg vy) }
      else none
    else if subIns = 0x2 then
      if vx < 16 ∧ vy < 16 then
        some { system with reg := setAt system.reg vx (system.reg vx &&& system.reg vy) }
      else none
    else if subIns = 0x3 then
      if vx < 16 ∧ vy < 16 then
        some { system with reg := setAt system.reg vx (system.reg vx ^^^ system.reg vy) }
      else none
    else if subIns = 0x4 then
      if vx < 16 ∧ vy < 16 then
        let sum32Bit := (system.reg vx + system.reg vy) % 2 ^ 32
        let system1 :=
          if sum32Bit > 0xFFFF then { system with reg := setAt system.reg 0xF 1 }
          else { system with reg := setAt system.reg 0xF 0 }
        some { system1 with reg := setAt system1.reg vx (u8 (system1.reg vx + system1.reg vy)) }
      else none
    else if subIns = 0x5 then
      if vx < 16 ∧ vy < 16 then
        let system1 :=
          if system.reg vx < system.reg vy then { system with reg := setAt system.reg 0xF 0 }
          else { system with reg := setAt system.reg 0xF 1 }
        some { system1 with reg := setAt system1.reg vx (sub8 (system1.reg vx) (system1.reg vy)) }
      else none
    else if subIns = 0x6 then
      if vx < 16 then
        let system1 := { system with reg := setAt system.reg 0xF (system.reg vx &&& 0x01) }
        some { system1 with reg := setAt system1.reg vx (system1.reg vx >>> 1) }
      else none
    else if subIns = 0x7 then
      if vx < 16 ∧ vy < 16 then
        let system1 :=
          if system.reg vy < system.reg vx then { system with reg := setAt system.reg 0xF 0 }
          else { system with reg := setAt system.reg 0xF 1 }
        some { system1 with reg := setAt system1.reg vx (sub8 (system1.reg vy) (system1.reg vx)) }
      else none
    else if subIns = 0xE then
      if vx < 16 then
        let system1 := { system with reg := setAt system.reg 0xF ((system.reg vx &&& 0x80) >>> 7) }
        some { system1 with reg := setAt system1.reg vx (u8 (system1.reg vx <<< 1)) }
      else none
    else some system
  r.map advance

/-- Case `0x9` of `ExecOp`. -/
def ExecOp9 (system : chip8) (op : Nat) : Option chip8 :=
  let vx := extractReg 2 op
  let vy := extractReg 1 op
  if vx < 16 ∧ vy < 16 then
    some (advance (if system.reg vx ≠ system.reg vy then advance system else system))
  else none

/-- Case `0xA` of `ExecOp`. -/
def ExecOpA (system : chip8) (op : Nat) : Option chip8 :=
  some (advance { system with ind := op &&& 0x0FFF })

/-- Case `0xB` of `ExecOp`. -/
def ExecOpB (system : chip8) (op : Nat) : Option chip8 :=
  some { system with pc := u16 ((op &&& 0x0FFF) + system.reg 0) }

/-- Case `0xC` of `ExecOp`. -/
def ExecOpC (env : Env) (system : chip8) (op : Nat) : Option chip8 :=
  let vx := extractReg 2 op
  let rr := u8 (op &&& 0x00FF)
  if vx < 16 then
    some (advance { system with reg := setAt system.reg vx (rr &&& u8 (env.rand &&& 0x000000FF)) })
  else none

/-- Case `0xD` of `ExecOp`. -/
def ExecOpD (system : chip8) (op : Nat) : Option chip8 :=
  let vx := extractReg 2 op
  let vy := extractReg 1 op
  let height := u8 (op &&& 0x000F)
  if vx < 16 ∧ vy < 16 then
    (DrawSprite system (system.reg vx) (system.reg vy) height).map advance
  else none

/-- Case `0xE` of `ExecOp`: both cases only call `issue`, and `pc` is not advanced. -/
def ExecOpE (env : Env) (system : chip8) (op : Nat) : Option chip8 :=
  let subIns := op &&& 0x00FF
  if subIns = 0x009E then
    if env.issueReturns then some system else none
  else if subIns = 0x00A1 then
    if env.issueReturns then some system else none
  else some system

/-- The loop `for i := uint16(2); i >= 0; i--` of case `0xFR33`. Its condition holds for
every `uint16`, so the loop is only left by the panic of an index outside `mem`. -/
def bcdLoop (system : chip8) (i dec : Nat) : Option chip8 :=
  if u16 (system.ind + i) < 4000 then
    bcdLoop { system with mem := setAt system.mem (u16 (system.ind + i)) (u8 (dec % 10)) }
      (sub16 i 1) (dec / 10)
  else none
termination_by (u16 (system.ind + i) + 1) % 65536
decreasing_by
  simp only [u16, sub16] at *
  omega

/-- The loop `for vi := uint16(0); vi <= uint16(vr); vi++` of case `0xFR55`: the first
argument is the number of iterations that are left, the second the loop counter. -/
def storeLoop : Nat → Nat → chip8 → Option chip8
  | 0, _, system => some system
  | n + 1, vi, system =>
    if vi < 16 ∧ u16 (system.ind + vi) < 4000 then
      storeLoop n (vi + 1)
        { system with mem := setAt system.mem (u16 (system.ind + vi)) (system.reg vi) }
    else none

/-- The loop `for vi := uint16(0); vi <= uint16(vr); vi++` of case `0xFR65`. -/
def loadLoop : Nat → Nat → chip8 → Option chip8
  | 0, _, system => some system
  | n + 1, vi, system =>
    if vi < 16 ∧ u16 (system.ind + vi) < 4000 then
      loadLoop n (vi + 1)
        { system with reg := setAt system.reg vi (system.mem (u16 (system.ind + vi))) }
    else none

/-- Case `0xF` of `ExecOp`: the inner switch on `op & 0x00FF`, then `system.pc += 2`. -/
def ExecOpF (env : Env) (system : chip8) (op : Nat) : Option chip8 :=
  let vr := extractReg 2 op
  let subIns := op &&& 0x00FF
  let r : Option chip8 :=
    if subIns = 0x07 then
      if vr < 16 then some { system with reg := setAt system.reg vr system.delayTimer } else none
    else if subIns = 0x0A then
      if vr < 16 then
        some { system with reg := setAt system.reg vr ((env.key - 48) % 256).toNat }
      else none
    else if subIns = 0x15 then
      if vr < 16 then some { system with delayTimer := system.reg vr } else none
    else if subIns = 0x18 then
      if vr < 16 then some { system with soundTimer := system.reg vr } else none
    else if subIns = 0x1E then
      if vr < 16 then some { system with ind := u16 (system.ind + system.reg vr) &&& 0x0FFF }
      else none
    else if subIns = 0x29 then
      if vr < 16 then some { system with ind := SpriteAddr (system.reg vr) } else none
    else if subIns = 0x33 then
      if vr < 16 then bcdLoop system 2 (system.reg vr) else none
    else if subIns = 0x55 then
      storeLoop (vr + 1) 0 system
    else if subIns = 0x65 then
      loadLoop (vr + 1) 0 system
    else some system
  r.map advance

/-- The method `ExecOp`: the switch on `(op & 0xF000) >> 12`. -/
def ExecOp (env : Env) (system : chip8) (op : Nat) : Option chip8 :=
  let ins := (op &&& 0xF000) >>> 12
  if ins = 0x0 then ExecOp0 system op
  else if ins = 0x1 then ExecOp1 system op
  else if ins = 0x2 then ExecOp2 system op
  else if ins = 0x3 then ExecOp3 system op
  else if ins = 0x4 then ExecOp4 system op
  else if ins = 0x5 then ExecOp5 system op
  else if ins = 0x6 then ExecOp6 system op
  else if ins = 0x7 then ExecOp7 system op
  else if ins = 0x8 then ExecOp8 system op
  else if ins = 0x9 then ExecOp9 system op
  else if ins = 0xA then ExecOpA system op
  else if ins = 0xB then ExecOpB system op
  else if ins = 0xC then ExecOpC env system op
  else if ins = 0xD then ExecOpD system op
  else if ins = 0xE then ExecOpE env system op
  else if ins = 0xF then ExecOpF env system op
  else some system

/-! ## Concrete states used in the examples -/

/-- The zero valued machine with a stack of limit `16`. -/
def zeroMachine : chip8 :=
  { mem := fun _ => 0, screen := blankScreen, reg := fun _ => 0, ind := 0, pc := 0, sp := 0,
    soundTimer := 0, delayTimer := 0, st := { stack := [], limit := 16 } }

/-- No input: `rand.Uint32()` gives `0`, the key read is `'0'`, `issue` returns. -/
def zeroEnv : Env := { rand := 0, key := 48, issueReturns := true }

/-- A blank machine whose sprite byte `mem[ind] = mem[0]` is `0xFF`. -/
def drawState : chip8 := { zeroMachine with mem := setAt zeroMachine.mem 0 0xFF }

/-- A blank machine whose sprite byte `mem[0]` is `0` and whose flag `reg[0xF]` is `1`. -/
def flagState : chip8 := { zeroMachine with reg := setAt zeroMachine.reg 0xF 1 }

/-- A machine with `reg[0] = 200`. -/
def addState : chip8 := { zeroMachine with reg := setAt zeroMachine.reg 0 200 }

/-- A machine with `reg[1] = 200` and `reg[2] = 100`. -/
def addState12 : chip8 :=
  { zeroMachine with reg := setAt (setAt zeroMachine.reg 1 200) 2 100 }

/-- A machine with `reg[1] = 5` and `reg[2] = 10`. -/
def subState12 : chip8 :=
  { zeroMachine with reg := setAt (setAt zeroMachine.reg 1 5) 2 10 }

/-- A machine with `reg[1] = 10` and `reg[0] = 5`. -/
def subState10 : chip8 :=
  { zeroMachine with reg := setAt (setAt zeroMachine.reg 1 10) 0 5 }

/-- A machine with `pc = 0x200` and an empty stack of limit `16`. -/
def callState : chip8 := { zeroMachine with pc := 0x200 }

/-- A machine with `pc = 0`, `mem[0] = 0x12` and `mem[1] = 0x34`. -/
def fetchState : chip8 :=
  { zeroMachine with mem := setAt (setAt zeroMachine.mem 0 0x12) 1 0x34 }

/-- A machine as `main` sets it up: every field zero, an empty stack whose `limit` is
left at zero, and `pc = 1`. -/
def mainMachine : chip8 :=
  { zeroMachine with pc := 1, st := { stack := [], limit := 0 } }

/-- A machine with `reg[0] = 255` and `ind = 0x300`. -/
def bcdState : chip8 := { zeroMachine with reg := setAt zeroMachine.reg 0 255, ind := 0x300 }

/-- A machine with `pc = 4000`. -/
def highPcState : chip8 := { zeroMachine with pc := 4000 }

/-- A stack that holds as many elements as its limit allows. -/
def fullStack : FiloStack := { stack := [0x200, 0x300], limit := 2 }

/-- A stack with room for one more element. -/
def roomStack : FiloStack := { stack := [0x200], limit := 2 }

/-! ## Runs of the machine and sets of opcodes -/

/-- Index register, program counter, stack pointer and call stack of a state. -/
def chip8.control (system : chip8) : Nat × Nat × Nat × FiloStack :=
  (system.ind, system.pc, system.sp, system.st)

/-- A sequence of calls of `ExecOp`; each step gives the opcode and what the call takes
from outside the machine state. The run ends without a state when a call panics. -/
def runOps (system : chip8) : List (Env × Nat) → Option chip8
  | [] => some system
  | step :: rest => (ExecOp step.1 system step.2).bind fun system1 => runOps system1 rest

/-- The opcode is a call that meets a full call stack or a return that meets an empty one:
the two cases in which `push` or `pop` return an error to `ExecOp`. -/
def stackFault (system : chip8) (op : Nat) : Bool :=
  decide ((op &&& 0xF000) >>> 12 = 0x2 ∧ ¬ (system.st.stack.length : Int) < system.st.limit) ||
    decide (op = 0x00EE ∧ system.st.stack.length = 0)

/-- No step of the run is a stack fault. -/
def faultFree (system : chip8) : List (Env × Nat) → Bool
  | [] => true
  | step :: rest =>
    !stackFault system step.2 &&
      match ExecOp step.1 system step.2 with
      | some system1 => faultFree system1 rest
      | none => true

/-- The 16-bit words without an instruction: `0x0NNN` other than `0x00E0` and `0x00EE`,
`0x8XY8` to `0x8XYD` and `0x8XYF`, `0xEXNN` other than `9E` and `A1`, and `0xFXNN` with a
low byte that is not one of `07 0A 15 18 1E 29 33 55 65`. -/
def unassigned (op : Nat) : Bool :=
  decide (op / 4096 = 0x0 ∧ op ≠ 0x00E0 ∧ op ≠ 0x00EE) ||
  decide (op / 4096 = 0x8 ∧ (8 ≤ op % 16 ∧ op % 16 ≤ 0xD ∨ op % 16 = 0xF)) ||
  decide (op / 4096 = 0xE ∧ op % 256 ≠ 0x9E ∧ op % 256 ≠ 0xA1) ||
  decide (op / 4096 = 0xF ∧
    op % 256 ∉ [0x07, 0x0A, 0x15, 0x18, 0x1E, 0x29, 0x33, 0x55, 0x65])

/-- The opcodes `00E0`, `6XRR`, `7XRR`, `8XY0` to `8XY7`, `8XYE`, `ANNN`, `CXKK`, `DXYN`,
`FX07`, `FX15`, `FX18`, `FX1E`, `FX29`, `FX33`, `FX55` and `FX65`. -/
def advancing (op : Nat) : Bool :=
  decide (op = 0x00E0) || decide (op / 4096 = 0x6) || decide (op / 4096 = 0x7) ||
  decide (op / 4096 = 0x8 ∧ (op % 16 ≤ 7 ∨ op % 16 = 0xE)) ||
  decide (op / 4096 = 0xA) || decide (op / 4096 = 0xC) || decide (op / 4096 = 0xD) ||
  decide (op / 4096 = 0xF ∧ op % 256 ∈ [0x07, 0x15, 0x18, 0x1E, 0x29, 0x33, 0x55, 0x65])

/-! ## Auxiliary facts -/

theorem setAt_self (a : Nat → Nat) (i : Nat) : setAt a i (a i) = a := by
  funext j
  unfold setAt
  split
  · next h => rw [h]
  · rfl

theorem sub8_64 (vx : Nat) (h : vx ≤ 56) : sub8 64 vx = 64 - vx := by
  unfold sub8; omega

theorem u8_shiftLeft_ge (a k : Nat) (hk : 8 ≤ k) : u8 (a <<< k) = 0 := by
  unfold u8
  obtain ⟨m, rfl⟩ := Nat.exists_eq_add_of_le hk
  rw [Nat.shiftLeft_eq, Nat.pow_add]
  have : a * (2 ^ 8 * 2 ^ m) = 256 * (a * 2 ^ m) := by ring
  rw [this]
  exact Nat.mul_mod_right _ _

theorem and_not64_zero (a : Nat) (h : a < 2 ^ 64) : a &&& not64 0 = a := by
  unfold not64
  rw [Nat.zero_xor, Nat.and_pow_two_sub_one_eq_mod]
  exact Nat.mod_eq_of_lt h

theorem and_shiftRight (a b k : Nat) : (a &&& b) >>> k = (a >>> k) &&& (b >>> k) := by
  apply Nat.eq_of_testBit_eq
  intro i
  simp [Nat.testBit_shiftRight, Nat.testBit_and]

/-- The discriminator `(op & 0xF000) >> 12` of `ExecOp` is the fourth hexadecimal digit of `op`. -/
theorem ins_eq (op : Nat) : (op &&& 0xF000) >>> 12 = op / 4096 % 16 := by
  rw [and_shiftRight, Nat.shiftRight_eq_div_pow]
  have h : (0xF000 : Nat) >>> 12 = 2 ^ 4 - 1 := by decide
  rw [h, Nat.and_pow_two_sub_one_eq_mod]

theorem and_0FFF (op : Nat) : op &&& 0x0FFF = op % 4096 := by
  have h : (0x0FFF : Nat) = 2 ^ 12 - 1 := by decide
  rw [h, Nat.and_pow_two_sub_one_eq_mod]

theorem zeroMachine_WF : zeroMachine.WF := by
  simp [chip8.WF, zeroMachine, blankScreen]

/-- On a target no further right than column 56, `PasteSpriteLine` leaves the display as
it is: the `uint8` shift by `64 - vx ≥ 8` is zero, so the row is and-ed with all ones. -/
theorem PasteSpriteLine_eq (system : chip8) (vx vy img : Nat) (hvx : vx ≤ 56) (hvy : vy < 32)
    (hs : system.screen vy < 2 ^ 64) :
    PasteSpriteLine system vx vy img =
      some { system with
        reg := if u8 ((system.screen vy &&& u64 (0xFF <<< (64 - vx))) >>> (64 - vx)) ^^^ img ≠ 0
          then setAt system.reg 0xF 1 else system.reg } := by
  unfold PasteSpriteLine
  simp only [sub8_64 vx hvx, hvy, if_true]
  rw [u8_shiftLeft_ge _ _ (by omega)]
  split <;> simp [and_not64_zero _ hs, setAt_self]


/-! ## Operand decoding -/

/-- C1 (the code differs): on the opcode `0x8124`, whose X nibble is `1` and whose Y nibble
is `2`, `extractReg(2, op)` is `32` and `extractReg(1, op)` is `64`; neither is the nibble
and neither is an index of the 16 registers. -/
theorem extractReg_0x8124 :
    extractReg 2 0x8124 = 32 ∧ (0x8124 >>> 8) &&& 0xF = 1 ∧
    extractReg 1 0x8124 = 64 ∧ (0x8124 >>> 4) &&& 0xF = 2 := by
  decide

/-! ## Drawing -/

/-- C2 (the code differs): drawing the sprite byte `0xFF` at column 0 of row 0 of a blank
display with `DrawSprite(0, 0, 1)` completes, leaves row 0 at zero and sets `reg[0xF]` to 1. -/
theorem DrawSprite_blank_nowrap :
    (DrawSprite drawState 0 0 1).map (fun s => (s.screen 0, s.reg 0xF)) = some (0, 1) := by
  decide

/-- C3 (the code differs): drawing the sprite byte `0xFF` at column 60 of row 0 of a blank
display with `DrawSprite(60, 0, 1)` completes and leaves row 0 without any bit set. -/
theorem DrawSprite_blank_wrap :
    (DrawSprite drawState 60 0 1).map (fun s => s.screen 0) = some 0 := by
  decide

/-- C4 (the code differs): on a blank display, where no sprite bit meets a lit pixel,
drawing the byte `0xFF` turns the flag `reg[0xF]` from 0 to 1, and drawing the byte `0`
leaves a flag that was 1 before the call at 1. -/
theorem DrawSprite_flag_rule :
    (drawState.screen 0 &&& 0xFF = 0 ∧ drawState.reg 0xF = 0 ∧
      (DrawSprite drawState 0 0 1).map (fun s => s.reg 0xF) = some 1) ∧
    (flagState.screen 0 &&& flagState.mem flagState.ind = 0 ∧ flagState.reg 0xF = 1 ∧
      (DrawSprite flagState 0 0 1).map (fun s => s.reg 0xF) = some 1) := by
  decide

/-- C6 (the code differs): `DrawSprite(0, 32, 1)` with its sprite byte inside memory does
not complete: the row index `y + i % 32 = 32` is outside the 32 rows of the display. -/
theorem DrawSprite_row_32 :
    drawState.ind + 1 ≤ 4000 ∧ (DrawSprite drawState 0 32 1).isNone = true := by
  decide

/-! ## Arithmetic opcodes -/

/-- C7 (the code differs): on `0x8004` with `reg[0] = 200` the sum `400` exceeds 255 and
`reg[0]` becomes `144`, but `reg[0xF]` is `0`; on `0x8124` with `reg[1] = 200` and
`reg[2] = 100` the instruction does not complete. -/
theorem ExecOp_8XY4_carry :
    (ExecOp zeroEnv addState 0x8004).map (fun s => (s.reg 0, s.reg 0xF)) = some (144, 0) ∧
    (ExecOp zeroEnv addState12 0x8124).isNone = true := by
  decide

/-- C8 (the code differs): on `0x8125` with `reg[1] = 5` and `reg[2] = 10` the instruction
does not complete; on `0x8105` with `reg[1] = 10` and `reg[0] = 5` it completes with
`reg[1]` still `10` and `reg[0]` set to `0`. -/
theorem ExecOp_8XY5_borrow :
    (ExecOp zeroEnv subState12 0x8125).isNone = true ∧
    (ExecOp zeroEnv subState10 0x8105).map (fun s => (s.reg 1, s.reg 0, s.reg 0xF)) =
      some (10, 0, 1) := by
  decide

/-! ## Call and return -/

/-- C9 (counterexample): from `pc = 0x200` the call `0x2300` pushes `0x200`, and the return
`0x00EE` that follows leaves `pc = 0x202`, not the pushed `0x200`. -/
theorem call_return_pc_0x202 :
    ((ExecOp zeroEnv callState 0x2300).bind fun s1 =>
      (ExecOp zeroEnv s1 0x00EE).map fun s2 => (s1.st.stack, s2.pc, s2.st.stack)) =
      some ([0x200], 0x202, []) ∧ (0x202 : Nat) ≠ 0x200 := by
  decide

/-- C9 (amended): when the call stack is not full, the call `0x2AAA` pushes the program
counter `P` and jumps to `A`, and the return `0x00EE` that follows sets the program counter
to `P + 2` (mod 2^16) and leaves the call stack as it was before the call. -/
theorem call_return_round_trip (env : Env) (system : chip8) (A : Nat) (hA : A < 4096)
    (hfull : (system.st.stack.length : Int) < system.st.limit) :
    ∃ s1 s2, ExecOp env system (0x2000 + A) = some s1 ∧
      s1.pc = A ∧ s1.st.stack = system.st.stack ++ [system.pc] ∧
      ExecOp env s1 0x00EE = some s2 ∧
      s2.pc = (system.pc + 2) % 65536 ∧ s2.st = system.st := by
  have hins : (0x2000 + A) / 4096 % 16 = 2 := by omega
  have hlow : (0x2000 + A) % 4096 % 4096 = A := by omega
  have h1 : ExecOp env system (0x2000 + A) = ExecOp2 system (0x2000 + A) := by
    simp only [ExecOp, ins_eq, hins]
    simp
  have h2 : ∀ s, ExecOp env s 0x00EE = ExecOp0 s 0x00EE := by
    intro s
    have h0 : ((0x00EE : Nat) &&& 0xF000) >>> 12 = 0 := by decide
    simp only [ExecOp, h0, if_true]
  have hpush : system.st.Push system.pc =
      ({ system.st with stack := system.st.stack ++ [system.pc] }, none) := by
    simp [FiloStack.Push, hfull]
  have hpop : FiloStack.Pop { system.st with stack := system.st.stack ++ [system.pc] } =
      (system.st, system.pc, none) := by
    simp [FiloStack.Pop]
  refine ⟨{ system with
      st := { system.st with stack := system.st.stack ++ [system.pc] },
      pc := A, sp := u16 (system.sp + 1) }, _, ?_, rfl, rfl, h2 _, ?_, ?_⟩
  · rw [h1]
    simp [ExecOp2, hpush, and_0FFF, hlow]
  · simp [ExecOp0, advance, hpop, u16]
  · simp [ExecOp0, advance, hpop]

/-- Witness of C9 (amended) at `pc = 0x200`, `A = 0x300` and an empty stack of limit 16. -/
theorem call_return_round_trip_witness :
    ∃ s1 s2, ExecOp zeroEnv callState (0x2000 + 0x300) = some s1 ∧
      s1.pc = 0x300 ∧ s1.st.stack = callState.st.stack ++ [callState.pc] ∧
      ExecOp zeroEnv s1 0x00EE = some s2 ∧
      s2.pc = (callState.pc + 2) % 65536 ∧ s2.st = callState.st :=
  call_return_round_trip zeroEnv callState 0x300 (by decide) (by decide)


/-! ## Fetch -/

/-- C10: when `pc` and `pc + 1` are indices of `mem`, `GetNextOp` returns the big-endian
word `mem[pc] * 256 + mem[pc+1]` and the state it was called on. -/
theorem GetNextOp_fetch (system : chip8) (hwf : system.WF) (hpc : system.pc + 1 < 4000) :
    GetNextOp system =
      some (system.mem system.pc * 256 + system.mem (system.pc + 1), system) := by
  have h0 := hwf.1 system.pc (by omega)
  have h1 := hwf.1 (system.pc + 1) hpc
  have hp : u16 (system.pc + 1) = system.pc + 1 := by unfold u16; omega
  unfold GetNextOp
  rw [hp, if_pos ⟨by omega, hpc⟩, Nat.shiftLeft_eq]
  simp only [u16]
  have : (system.mem system.pc * 2 ^ 8 % 65536 + system.mem (system.pc + 1)) % 65536 =
      system.mem system.pc * 256 + system.mem (system.pc + 1) := by omega
  rw [this]

theorem fetchState_WF : fetchState.WF := by
  refine ⟨?_, ?_, ?_, ?_⟩
  · intro i _
    simp only [fetchState, zeroMachine, setAt]
    split
    · decide
    · split <;> decide
  · intro i _; simp [fetchState, zeroMachine, blankScreen]
  · intro i _; simp [fetchState, zeroMachine]
  · simp [fetchState, zeroMachine]

/-- Witness of C10: with `mem[0] = 0x12` and `mem[1] = 0x34` the word fetched at `pc = 0`
is `0x1234`. -/
theorem GetNextOp_fetch_witness :
    GetNextOp fetchState =
      some (fetchState.mem fetchState.pc * 256 + fetchState.mem (fetchState.pc + 1),
        fetchState) ∧
    fetchState.mem fetchState.pc * 256 + fetchState.mem (fetchState.pc + 1) = 0x1234 :=
  ⟨GetNextOp_fetch fetchState fetchState_WF (by decide), by decide⟩


/-! ## Drawing twice -/

/-- On a row that is zero, `PasteSpriteLine` keeps display, memory and index register,
never clears the flag, and sets it when the pasted byte is not zero. -/
theorem PasteSpriteLine_zero_row (system : chip8) (vx vy img : Nat) (hvx : vx ≤ 56)
    (hvy : vy < 32) (hz : system.screen vy = 0) :
    ∃ s, PasteSpriteLine system vx vy img = some s ∧ s.screen = system.screen ∧
      s.mem = system.mem ∧ s.ind = system.ind ∧
      (system.reg 0xF = 1 → s.reg 0xF = 1) ∧ (img ≠ 0 → s.reg 0xF = 1) := by
  refine ⟨_, PasteSpriteLine_eq system vx vy img hvx hvy (by rw [hz]; decide), rfl, rfl, rfl,
    ?_, ?_⟩
  · intro h
    show (if _ then _ else _ : Nat → Nat) 0xF = 1
    split
    · simp [setAt]
    · exact h
  · intro h
    show (if _ then _ else _ : Nat → Nat) 0xF = 1
    rw [hz]
    simp [u8, h, setAt]

/-- A byte that is not zero leaves a bit in one of the two halves of a wrapped row. -/
theorem wrap_halves (b k : Nat) (hb : b < 256) (hb0 : b ≠ 0) (hk1 : 1 ≤ k) (hk7 : k ≤ 7) :
    u8 (b <<< k) ≠ 0 ∨ u8 (b >>> (8 - k)) ≠ 0 := by
  simp only [u8, Nat.shiftLeft_eq, Nat.shiftRight_eq_div_pow]
  interval_cases k <;> norm_num <;> omega

/-- One iteration of the loop of `DrawSprite` on a blank display. -/
theorem DrawSpriteRow_blank (system : chip8) (x y i : Nat) (hx : x < 64) (hrow : y + i < 32)
    (hind : system.ind + i < 4000) (hb : system.mem (system.ind + i) < 256)
    (hz : ∀ r, r < 32 → system.screen r = 0) :
    ∃ s, DrawSpriteRow system x y i = some s ∧ s.screen = system.screen ∧
      s.mem = system.mem ∧ s.ind = system.ind ∧
      (system.reg 0xF = 1 → s.reg 0xF = 1) ∧
      (system.mem (system.ind + i) ≠ 0 → s.reg 0xF = 1) := by
  have hi : i % 32 = i := Nat.mod_eq_of_lt (by omega)
  have hr : u8 (y + i) = y + i := by unfold u8; omega
  have ha : u16 (system.ind + i) = system.ind + i := by unfold u16; omega
  unfold DrawSpriteRow
  simp only [hi, hr, ha, hind, if_true]
  by_cases hw : x > 64 - 8
  · rw [if_pos hw]
    have hk : sub8 64 x = 64 - x := by unfold sub8; omega
    have hk2 : sub8 8 (64 - x) = 8 - (64 - x) := by unfold sub8; omega
    rw [hk, hk2]
    obtain ⟨s1, h1, hs1, hm1, hi1, hf1, hn1⟩ :=
      PasteSpriteLine_zero_row system 0 (y + i) (u8 (system.mem (system.ind + i) <<< (64 - x)))
        (by omega) hrow (hz _ hrow)
    obtain ⟨s2, h2, hs2, hm2, hi2, hf2, hn2⟩ :=
      PasteSpriteLine_zero_row s1 (64 - 8) (y + i)
        (u8 (system.mem (system.ind + i) >>> (8 - (64 - x))))
        (by omega) hrow (by rw [hs1]; exact hz _ hrow)
    refine ⟨s2, ?_, hs2.trans hs1, hm2.trans hm1, hi2.trans hi1, fun h => hf2 (hf1 h), ?_⟩
    · rw [h1]; exact h2
    · intro hne
      rcases wrap_halves _ (64 - x) hb hne (by omega) (by omega) with h | h
      · exact hf2 (hn1 h)
      · exact hn2 h
  · rw [if_neg hw]
    exact PasteSpriteLine_zero_row system x (y + i) _ (by omega) hrow (hz _ hrow)

/-- The loop of `DrawSprite` on a blank display: it completes, keeps display, memory and
index register, keeps a flag that is set, and sets the flag when one of the sprite bytes
it reads is not zero. -/
theorem DrawSpriteLoop_blank (x y : Nat) (hx : x < 64) (n : Nat) :
    ∀ (i : Nat) (system : chip8), y + i + n ≤ 32 → system.ind + i + n ≤ 4000 →
      (∀ j, j < 4000 → system.mem j < 256) → (∀ r, r < 32 → system.screen r = 0) →
      ∃ s, DrawSpriteLoop x y n i system = some s ∧ s.screen = system.screen ∧
        s.mem = system.mem ∧ s.ind = system.ind ∧
        (system.reg 0xF = 1 → s.reg 0xF = 1) ∧
        ((∃ j, i ≤ j ∧ j < i + n ∧ system.mem (system.ind + j) ≠ 0) → s.reg 0xF = 1) := by
  induction n with
  | zero =>
    intro i system _ _ _ _
    refine ⟨system, rfl, rfl, rfl, rfl, fun h => h, ?_⟩
    rintro ⟨j, h1, h2, _⟩
    omega
  | succ n ih =>
    intro i system hrow hind hmem hz
    obtain ⟨s1, h1, hs1, hm1, hi1, hf1, hn1⟩ :=
      DrawSpriteRow_blank system x y i hx (by omega) (by omega) (hmem _ (by omega)) hz
    obtain ⟨s2, h2, hs2, hm2, hi2, hf2, hn2⟩ :=
      ih (i + 1) s1 (by omega) (by rw [hi1]; omega) (by rw [hm1]; exact hmem)
        (by rw [hs1]; exact hz)
    refine ⟨s2, ?_, hs2.trans hs1, hm2.trans hm1, hi2.trans hi1, fun h => hf2 (hf1 h), ?_⟩
    · simp only [DrawSpriteLoop, h1, Option.some_bind, Option.bind]
      exact h2
    · rintro ⟨j, hj1, hj2, hj3⟩
      by_cases hji : j = i
      · subst hji
        exact hf2 (hn1 hj3)
      · apply hn2
        refine ⟨j, by omega, by omega, ?_⟩
        rw [hm1, hi1]
        exact hj3

/-- C5: on a blank display, for `x` in 0..63 and a sprite of `h` rows with `y + h ≤ 32`
(so `y` is in 0..31) that lies inside memory and has a set pixel, drawing it twice with
`DrawSprite(x, y, h)` completes both times, the display after the second draw is blank
and `reg[0xF]` is 1 after the second draw. -/
theorem DrawSprite_twice (system : chip8) (x y h : Nat) (hwf : system.WF)
    (hz : ∀ r, r < 32 → system.screen r = 0) (hx : x < 64) (hfit : y + h ≤ 32)
    (hind : system.ind + h ≤ 4000)
    (hpix : ∃ j, j < h ∧ system.mem (system.ind + j) ≠ 0) :
    ∃ s1 s2, DrawSprite system x y h = some s1 ∧ DrawSprite s1 x y h = some s2 ∧
      (∀ r, r < 32 → s2.screen r = 0) ∧ s2.reg 0xF = 1 := by
  obtain ⟨s1, h1, hs1, hm1, hi1, -, -⟩ :=
    DrawSpriteLoop_blank x y hx h 0 system (by omega) (by omega) hwf.1 hz
  obtain ⟨s2, h2, hs2, -, -, -, hn2⟩ :=
    DrawSpriteLoop_blank x y hx h 0 s1 (by omega) (by rw [hi1]; omega)
      (by rw [hm1]; exact hwf.1) (by rw [hs1]; exact hz)
  refine ⟨s1, s2, h1, h2, ?_, ?_⟩
  · intro r hr
    rw [hs2, hs1]
    exact hz r hr
  · apply hn2
    obtain ⟨j, hj, hne⟩ := hpix
    exact ⟨j, by omega, by omega, by rw [hm1, hi1]; exact hne⟩

theorem drawState_WF : drawState.WF := by
  refine ⟨?_, ?_, ?_, ?_⟩
  · intro i _
    simp only [drawState, zeroMachine, setAt]
    split <;> decide
  · intro i _; simp [drawState, zeroMachine, blankScreen]
  · intro i _; simp [drawState, zeroMachine]
  · simp [drawState, zeroMachine]

/-- Witness of C5: the one-row sprite `0xFF` drawn twice at column 60 of row 0. -/
theorem DrawSprite_twice_witness :
    ∃ s1 s2, DrawSprite drawState 60 0 1 = some s1 ∧ DrawSprite s1 60 0 1 = some s2 ∧
      (∀ r, r < 32 → s2.screen r = 0) ∧ s2.reg 0xF = 1 :=
  DrawSprite_twice drawState 60 0 1 drawState_WF (fun _ _ => rfl) (by decide) (by decide)
    (by decide) ⟨0, by decide, by decide⟩


/-! ## The bounded stack -/

/-- C12: on a stack whose length equals its limit, `Push` returns an error and leaves the
stack as it is (same elements, hence same length and same top element). -/
theorem Push_full (st : FiloStack) (e : Nat) (hfull : (st.stack.length : Int) = st.limit) :
    (st.Push e).2 = some "stack error: limit reached" ∧ (st.Push e).1 = st ∧
    (st.Push e).1.stack.length = st.stack.length ∧
    (st.Push e).1.stack.getLast? = st.stack.getLast? := by
  have h : ¬ (st.stack.length : Int) < st.limit := by omega
  simp [FiloStack.Push, h]

/-- Witness of C12: pushing on the stack `[0x200, 0x300]` of limit 2. -/
theorem Push_full_witness :
    (fullStack.Push 0x400).2 = some "stack error: limit reached" ∧
    (fullStack.Push 0x400).1 = fullStack ∧
    (fullStack.Push 0x400).1.stack.length = fullStack.stack.length ∧
    (fullStack.Push 0x400).1.stack.getLast? = fullStack.stack.getLast? :=
  Push_full fullStack 0x400 (by decide)

/-- C18: on a stack whose length does not exceed its limit, a `Push` below the limit
succeeds and the `Pop` that follows returns the pushed element without error and gives
back the stack as it was; `Push` and `Pop` keep the limit and keep the length at most the
limit. -/
theorem Push_Pop_round_trip (st : FiloStack) (e : Nat)
    (hle : (st.stack.length : Int) ≤ st.limit) :
    ((st.stack.length : Int) < st.limit →
      (st.Push e).2 = none ∧ (st.Push e).1.stack = st.stack ++ [e] ∧
      (st.Push e).1.Pop = (st, e, none)) ∧
    (st.Push e).1.limit = st.limit ∧ st.Pop.1.limit = st.limit ∧
    ((st.Push e).1.stack.length : Int) ≤ st.limit ∧
    (st.Pop.1.stack.length : Int) ≤ st.limit := by
  refine ⟨?_, ?_, ?_, ?_, ?_⟩
  · intro h
    simp [FiloStack.Push, FiloStack.Pop, h]
  · unfold FiloStack.Push
    split <;> rfl
  · unfold FiloStack.Pop
    split <;> rfl
  · unfold FiloStack.Push
    split
    · simp only [List.length_append, List.length_singleton]
      omega
    · exact hle
  · unfold FiloStack.Pop
    split
    · simp only [List.length_take]
      omega
    · exact hle

/-- Witness of C18: pushing `0x300` on the stack `[0x200]` of limit 2 and popping it. -/
theorem Push_Pop_round_trip_witness :
    ((roomStack.Push 0x300).2 = none ∧
      (roomStack.Push 0x300).1.stack = roomStack.stack ++ [0x300] ∧
      (roomStack.Push 0x300).1.Pop = (roomStack, 0x300, none)) ∧
    (roomStack.Push 0x300).1.limit = roomStack.limit ∧ roomStack.Pop.1.limit = roomStack.limit ∧
    ((roomStack.Push 0x300).1.stack.length : Int) ≤ roomStack.limit ∧
    (roomStack.Pop.1.stack.length : Int) ≤ roomStack.limit :=
  ⟨(Push_Pop_round_trip roomStack 0x300 (by decide)).1 (by decide),
    (Push_Pop_round_trip roomStack 0x300 (by decide)).2⟩

/-! ## Memory -/

/-- The loop of case `0xFR33` never ends with a state. -/
theorem bcdLoop_none (system : chip8) (i dec : Nat) : bcdLoop system i dec = none := by
  induction system, i, dec using bcdLoop.induct with
  | case1 system i dec h ih => rw [bcdLoop, if_pos h]; exact ih
  | case2 system i dec h => rw [bcdLoop, if_neg h]

/-- C11 (the code differs): on `0xF033` with `reg[0] = 255` and `ind = 0x300` the
instruction does not complete, since `extractReg(2, 0xF033)` is `0x30`, no index of `reg`;
and the loop of the case, entered with the value of `reg[0]`, does not complete either. -/
theorem ExecOp_FX33_bcd :
    bcdState.ind + 2 < 4000 ∧ extractReg 2 0xF033 = 0x30 ∧
    (ExecOp zeroEnv bcdState 0xF033).isNone = true ∧
    (bcdLoop bcdState 2 (bcdState.reg 0)).isNone = true := by
  refine ⟨by decide, by decide, by decide, ?_⟩
  rw [bcdLoop_none]
  rfl

/-- C17 (the code differs): with `pc = 4000`, an address below `0xFFE`, `GetNextOp` does
not complete, since `mem` has 4000 entries. -/
theorem GetNextOp_pc_4000 :
    highPcState.pc ≤ 0xFFE ∧ (GetNextOp highPcState).isNone = true := by
  decide


/-! ## What the cases of `ExecOp` leave unchanged -/

theorem PasteSpriteLine_control (system : chip8) (vx vy img : Nat) (s : chip8)
    (h : PasteSpriteLine system vx vy img = some s) : s.control = system.control := by
  unfold PasteSpriteLine at h
  simp only at h
  split_ifs at h <;> (simp only [Option.some.injEq] at h; subst h; rfl)

theorem DrawSpriteRow_control (system : chip8) (x y i : Nat) (s : chip8)
    (h : DrawSpriteRow system x y i = some s) : s.control = system.control := by
  unfold DrawSpriteRow at h
  simp only at h
  split_ifs at h
  · obtain ⟨s1, h1, h2⟩ := Option.bind_eq_some.mp h
    rw [PasteSpriteLine_control _ _ _ _ _ h2, PasteSpriteLine_control _ _ _ _ _ h1]
  · exact PasteSpriteLine_control _ _ _ _ _ h

theorem DrawSpriteLoop_control (x y n : Nat) :
    ∀ (i : Nat) (system s : chip8), DrawSpriteLoop x y n i system = some s →
      s.control = system.control := by
  induction n with
  | zero =>
    intro i system s h
    simp only [DrawSpriteLoop, Option.some.injEq] at h
    rw [h]
  | succ n ih =>
    intro i system s h
    simp only [DrawSpriteLoop] at h
    obtain ⟨s1, h1, h2⟩ := Option.bind_eq_some.mp h
    rw [ih _ _ _ h2, DrawSpriteRow_control _ _ _ _ _ h1]

theorem storeLoop_control (n : Nat) :
    ∀ (vi : Nat) (system s : chip8), storeLoop n vi system = some s →
      s.control = system.control := by
  induction n with
  | zero =>
    intro vi system s h
    simp only [storeLoop, Option.some.injEq] at h
    rw [h]
  | succ n ih =>
    intro vi system s h
    simp only [storeLoop] at h
    split_ifs at h
    rw [ih _ _ _ h]
    rfl

theorem loadLoop_control (n : Nat) :
    ∀ (vi : Nat) (system s : chip8), loadLoop n vi system = some s →
      s.control = system.control := by
  induction n with
  | zero =>
    intro vi system s h
    simp only [loadLoop, Option.some.injEq] at h
    rw [h]
  | succ n ih =>
    intro vi system s h
    simp only [loadLoop] at h
    split_ifs at h
    rw [ih _ _ _ h]
    rfl

theorem ExecOp0_control (system : chip8) (op : Nat) (s : chip8) (hop : op ≠ 0x00EE)
    (h : ExecOp0 system op = some s) : s.control = (advance system).control := by
  unfold ExecOp0 at h
  simp only [hop, if_false, Option.some.injEq] at h
  subst h
  split_ifs <;> rfl

theorem ExecOp0_ind (system : chip8) (op : Nat) (s : chip8)
    (h : ExecOp0 system op = some s) : s.ind = system.ind := by
  unfold ExecOp0 at h
  simp only [Option.some.injEq] at h
  subst h
  split_ifs <;> rfl

theorem ExecOp3_frame (system : chip8) (op : Nat) (s : chip8) (h : ExecOp3 system op = some s) :
    s.ind = system.ind ∧ s.sp = system.sp ∧ s.st = system.st := by
  unfold ExecOp3 at h
  simp only at h
  split_ifs at h <;> (simp only [Option.some.injEq] at h; subst h; simp [advance])

theorem ExecOp4_frame (system : chip8) (op : Nat) (s : chip8) (h : ExecOp4 system op = some s) :
    s.ind = system.ind ∧ s.sp = system.sp ∧ s.st = system.st := by
  unfold ExecOp4 at h
  simp only at h
  split_ifs at h <;> (simp only [Option.some.injEq] at h; subst h; simp [advance])

theorem ExecOp5_frame (system : chip8) (op : Nat) (s : chip8) (h : ExecOp5 system op = some s) :
    s.ind = system.ind ∧ s.sp = system.sp ∧ s.st = system.st := by
  unfold ExecOp5 at h
  simp only at h
  split_ifs at h <;> (simp only [Option.some.injEq] at h; subst h; simp [advance])

theorem ExecOp9_frame (system : chip8) (op : Nat) (s : chip8) (h : ExecOp9 system op = some s) :
    s.ind = system.ind ∧ s.sp = system.sp ∧ s.st = system.st := by
  unfold ExecOp9 at h
  simp only at h
  split_ifs at h <;> (simp only [Option.some.injEq] at h; subst h; simp [advance])

theorem ExecOp6_control (system : chip8) (op : Nat) (s : chip8)
    (h : ExecOp6 system op = some s) : s.control = (advance system).control := by
  unfold ExecOp6 at h
  simp only at h
  split_ifs at h
  simp only [Option.some.injEq] at h
  subst h
  rfl

theorem ExecOp7_control (system : chip8) (op : Nat) (s : chip8)
    (h : ExecOp7 system op = some s) : s.control = (advance system).control := by
  unfold ExecOp7 at h
  simp only at h
  split_ifs at h
  simp only [Option.some.injEq] at h
  subst h
  rfl

theorem ite_some_imp {P : chip8 → Prop} {c : Prop} [Decidable c] {x y : Option chip8}
    (hx : ∀ a, x = some a → P a) (hy : ∀ a, y = some a → P a) :
    ∀ a, (if c then x else y) = some a → P a := by
  intro a h
  split_ifs at h
  · exact hx a h
  · exact hy a h

theorem none_imp {P : chip8 → Prop} : ∀ a, (none : Option chip8) = some a → P a := by
  intro a h
  cases h

theorem ExecOp8_control (system : chip8) (op : Nat) (s : chip8)
    (h : ExecOp8 system op = some s) : s.control = (advance system).control := by
  unfold ExecOp8 at h
  simp only at h
  obtain ⟨a, ha, rfl⟩ := Option.map_eq_some'.mp h
  clear h
  revert a
  repeat' first
    | apply ite_some_imp
    | apply none_imp
  all_goals
    intro a ha
    injection ha with ha
    subst ha
    first
      | rfl
      | (simp only [chip8.control, advance]; split_ifs <;> rfl)

theorem ExecOpC_control (env : Env) (system : chip8) (op : Nat) (s : chip8)
    (h : ExecOpC env system op = some s) : s.control = (advance system).control := by
  unfold ExecOpC at h
  simp only at h
  split_ifs at h
  simp only [Option.some.injEq] at h
  subst h
  rfl

theorem ExecOpD_control (system : chip8) (op : Nat) (s : chip8)
    (h : ExecOpD system op = some s) : s.control = (advance system).control := by
  unfold ExecOpD at h
  simp only at h
  split_ifs at h
  obtain ⟨a, ha, rfl⟩ := Option.map_eq_some'.mp h
  have hc := DrawSpriteLoop_control _ _ _ _ _ _ ha
  simp only [chip8.control, advance, Prod.mk.injEq] at hc ⊢
  obtain ⟨h1, h2, h3, h4⟩ := hc
  simp [h1, h2, h3, h4]

theorem ExecOpE_eq (env : Env) (system : chip8) (op : Nat) (s : chip8)
    (h : ExecOpE env system op = some s) : s = system := by
  unfold ExecOpE at h
  simp only at h
  split_ifs at h <;> (simp only [Option.some.injEq] at h; exact h.symm)

theorem SpriteAddr_le (char : Nat) : SpriteAddr char ≤ 0x0FFF := by
  unfold SpriteAddr u16 u8
  have h1 : (char &&& 0x000F) * 5 % 256 % 65536 ≤ (char &&& 0x000F) * 5 % 256 := Nat.mod_le _ _
  have h2 : (char &&& 0x000F) * 5 % 256 < 256 := Nat.mod_lt _ (by decide)
  omega

theorem ExecOpF_frame (env : Env) (system : chip8) (op : Nat) (s : chip8)
    (h : ExecOpF env system op = some s) :
    s.sp = system.sp ∧ s.st = system.st ∧ s.pc = u16 (system.pc + 2) ∧
    (system.ind ≤ 0x0FFF → s.ind ≤ 0x0FFF) := by
  unfold ExecOpF at h
  simp only at h
  obtain ⟨a, ha, rfl⟩ := Option.map_eq_some'.mp h
  split_ifs at ha
  all_goals first
    | (simp only [Option.some.injEq] at ha; subst ha
       refine ⟨rfl, rfl, rfl, ?_⟩
       first
         | exact fun h => h
         | (intro _; exact SpriteAddr_le _)
         | (intro _; show _ &&& 0x0FFF ≤ 0x0FFF; rw [and_0FFF]; omega))
    | (rw [bcdLoop_none] at ha; exact absurd ha (by simp))
    | (have hc := storeLoop_control _ _ _ _ ha
       simp only [chip8.control, Prod.mk.injEq] at hc
       obtain ⟨h1, h2, h3, h4⟩ := hc
       simp [advance, h1, h2, h3, h4])
    | (have hc := loadLoop_control _ _ _ _ ha
       simp only [chip8.control, Prod.mk.injEq] at hc
       obtain ⟨h1, h2, h3, h4⟩ := hc
       simp [advance, h1, h2, h3, h4])


theorem control_advance (system s : chip8) (h : s.control = (advance system).control) :
    s.ind = system.ind ∧ s.pc = u16 (system.pc + 2) ∧ s.sp = system.sp ∧ s.st = system.st := by
  simp only [chip8.control, advance, Prod.mk.injEq] at h
  exact h

theorem ExecOp1_frame (system : chip8) (op : Nat) (s : chip8) (h : ExecOp1 system op = some s) :
    s.ind = system.ind ∧ s.sp = system.sp ∧ s.st = system.st := by
  unfold ExecOp1 at h
  simp only [Option.some.injEq] at h
  subst h
  exact ⟨rfl, rfl, rfl⟩

theorem ExecOp2_ind (system : chip8) (op : Nat) (s : chip8) (h : ExecOp2 system op = some s) :
    s.ind = system.ind := by
  unfold ExecOp2 at h
  simp only [Option.some.injEq] at h
  subst h
  rfl

theorem ExecOpA_frame (system : chip8) (op : Nat) (s : chip8) (h : ExecOpA system op = some s) :
    s.sp = system.sp ∧ s.st = system.st ∧ s.pc = u16 (system.pc + 2) ∧ s.ind ≤ 0x0FFF := by
  unfold ExecOpA at h
  simp only [Option.some.injEq] at h
  subst h
  refine ⟨rfl, rfl, rfl, ?_⟩
  show op &&& 0x0FFF ≤ 0x0FFF
  rw [and_0FFF]
  omega

theorem ExecOpB_frame (system : chip8) (op : Nat) (s : chip8) (h : ExecOpB system op = some s) :
    s.ind = system.ind ∧ s.sp = system.sp ∧ s.st = system.st := by
  unfold ExecOpB at h
  simp only [Option.some.injEq] at h
  subst h
  exact ⟨rfl, rfl, rfl⟩

/-- The switch of `ExecOp` selects its case by the fourth hexadecimal digit of the opcode. -/
theorem ExecOp_cases (env : Env) (system : chip8) (op : Nat) :
    (op / 4096 % 16 = 0x0 ∧ ExecOp env system op = ExecOp0 system op) ∨
    (op / 4096 % 16 = 0x1 ∧ ExecOp env system op = ExecOp1 system op) ∨
    (op / 4096 % 16 = 0x2 ∧ ExecOp env system op = ExecOp2 system op) ∨
    (op / 4096 % 16 = 0x3 ∧ ExecOp env system op = ExecOp3 system op) ∨
    (op / 4096 % 16 = 0x4 ∧ ExecOp env system op = ExecOp4 system op) ∨
    (op / 4096 % 16 = 0x5 ∧ ExecOp env system op = ExecOp5 system op) ∨
    (op / 4096 % 16 = 0x6 ∧ ExecOp env system op = ExecOp6 system op) ∨
    (op / 4096 % 16 = 0x7 ∧ ExecOp env system op = ExecOp7 system op) ∨
    (op / 4096 % 16 = 0x8 ∧ ExecOp env system op = ExecOp8 system op) ∨
    (op / 4096 % 16 = 0x9 ∧ ExecOp env system op = ExecOp9 system op) ∨
    (op / 4096 % 16 = 0xA ∧ ExecOp env system op = ExecOpA system op) ∨
    (op / 4096 % 16 = 0xB ∧ ExecOp env system op = ExecOpB system op) ∨
    (op / 4096 % 16 = 0xC ∧ ExecOp env system op = ExecOpC env system op) ∨
    (op / 4096 % 16 = 0xD ∧ ExecOp env system op = ExecOpD system op) ∨
    (op / 4096 % 16 = 0xE ∧ ExecOp env system op = ExecOpE env system op) ∨
    (op / 4096 % 16 = 0xF ∧ ExecOp env system op = ExecOpF env system op) := by
  have hlt : op / 4096 % 16 < 16 := Nat.mod_lt _ (by decide)
  unfold ExecOp
  simp only [ins_eq]
  generalize op / 4096 % 16 = k at hlt ⊢
  interval_cases k <;> simp

/-- A completed `ExecOp` keeps the index register within 12 bits. -/
theorem ExecOp_ind (env : Env) (system : chip8) (op : Nat) (s : chip8)
    (hind : system.ind ≤ 0x0FFF) (h : ExecOp env system op = some s) : s.ind ≤ 0x0FFF := by
  rcases ExecOp_cases env system op with
    ⟨_, he⟩ | ⟨_, he⟩ | ⟨_, he⟩ | ⟨_, he⟩ | ⟨_, he⟩ | ⟨_, he⟩ | ⟨_, he⟩ | ⟨_, he⟩ |
    ⟨_, he⟩ | ⟨_, he⟩ | ⟨_, he⟩ | ⟨_, he⟩ | ⟨_, he⟩ | ⟨_, he⟩ | ⟨_, he⟩ | ⟨_, he⟩ <;>
    rw [he] at h
  · rw [ExecOp0_ind _ _ _ h]; exact hind
  · rw [(ExecOp1_frame _ _ _ h).1]; exact hind
  · rw [ExecOp2_ind _ _ _ h]; exact hind
  · rw [(ExecOp3_frame _ _ _ h).1]; exact hind
  · rw [(ExecOp4_frame _ _ _ h).1]; exact hind
  · rw [(ExecOp5_frame _ _ _ h).1]; exact hind
  · rw [(control_advance _ _ (ExecOp6_control _ _ _ h)).1]; exact hind
  · rw [(control_advance _ _ (ExecOp7_control _ _ _ h)).1]; exact hind
  · rw [(control_advance _ _ (ExecOp8_control _ _ _ h)).1]; exact hind
  · rw [(ExecOp9_frame _ _ _ h).1]; exact hind
  · exact (ExecOpA_frame _ _ _ h).2.2.2
  · rw [(ExecOpB_frame _ _ _ h).1]; exact hind
  · rw [(control_advance _ _ (ExecOpC_control _ _ _ _ h)).1]; exact hind
  · rw [(control_advance _ _ (ExecOpD_control _ _ _ h)).1]; exact hind
  · rw [ExecOpE_eq _ _ _ _ h]; exact hind
  · exact (ExecOpF_frame _ _ _ _ h).2.2.2 hind

/-- A completed `ExecOp` that is neither a call nor a return keeps stack pointer and call
stack. -/
theorem ExecOp_stack (env : Env) (system : chip8) (op : Nat) (s : chip8)
    (hcall : op / 4096 % 16 ≠ 0x2) (hret : op ≠ 0x00EE)
    (h : ExecOp env system op = some s) : s.sp = system.sp ∧ s.st = system.st := by
  rcases ExecOp_cases env system op with
    ⟨_, he⟩ | ⟨_, he⟩ | ⟨hk, he⟩ | ⟨_, he⟩ | ⟨_, he⟩ | ⟨_, he⟩ | ⟨_, he⟩ | ⟨_, he⟩ |
    ⟨_, he⟩ | ⟨_, he⟩ | ⟨_, he⟩ | ⟨_, he⟩ | ⟨_, he⟩ | ⟨_, he⟩ | ⟨_, he⟩ | ⟨_, he⟩ <;>
    rw [he] at h
  · exact (control_advance _ _ (ExecOp0_control _ _ _ hret h)).2.2
  · exact (ExecOp1_frame _ _ _ h).2
  · exact absurd hk hcall
  · exact (ExecOp3_frame _ _ _ h).2
  · exact (ExecOp4_frame _ _ _ h).2
  · exact (ExecOp5_frame _ _ _ h).2
  · exact (control_advance _ _ (ExecOp6_control _ _ _ h)).2.2
  · exact (control_advance _ _ (ExecOp7_control _ _ _ h)).2.2
  · exact (control_advance _ _ (ExecOp8_control _ _ _ h)).2.2
  · exact (ExecOp9_frame _ _ _ h).2
  · exact ⟨(ExecOpA_frame _ _ _ h).1, (ExecOpA_frame _ _ _ h).2.1⟩
  · exact (ExecOpB_frame _ _ _ h).2
  · exact (control_advance _ _ (ExecOpC_control _ _ _ _ h)).2.2
  · exact (control_advance _ _ (ExecOpD_control _ _ _ h)).2.2
  · rw [ExecOpE_eq _ _ _ _ h]; exact ⟨rfl, rfl⟩
  · exact ⟨(ExecOpF_frame _ _ _ _ h).1, (ExecOpF_frame _ _ _ _ h).2.1⟩


theorem and_000F (op : Nat) : op &&& 0x000F = op % 16 := by
  have h : (0x000F : Nat) = 2 ^ 4 - 1 := by decide
  rw [h, Nat.and_pow_two_sub_one_eq_mod]

theorem and_00FF (op : Nat) : op &&& 0x00FF = op % 256 := by
  have h : (0x00FF : Nat) = 2 ^ 8 - 1 := by decide
  rw [h, Nat.and_pow_two_sub_one_eq_mod]

/-- A completed `ExecOp` of a case that ends in `system.pc += 2` and does not set `pc`
before advances the program counter by 2. -/
theorem ExecOp_pc (env : Env) (system : chip8) (op : Nat) (s : chip8)
    (hk : op / 4096 % 16 = 0x6 ∨ op / 4096 % 16 = 0x7 ∨ op / 4096 % 16 = 0x8 ∨
      op / 4096 % 16 = 0xA ∨ op / 4096 % 16 = 0xC ∨ op / 4096 % 16 = 0xD ∨
      op / 4096 % 16 = 0xF ∨ (op / 4096 % 16 = 0x0 ∧ op ≠ 0x00EE))
    (h : ExecOp env system op = some s) : s.pc = u16 (system.pc + 2) := by
  rcases ExecOp_cases env system op with
    ⟨hc, he⟩ | ⟨hc, he⟩ | ⟨hc, he⟩ | ⟨hc, he⟩ | ⟨hc, he⟩ | ⟨hc, he⟩ | ⟨hc, he⟩ | ⟨hc, he⟩ |
    ⟨hc, he⟩ | ⟨hc, he⟩ | ⟨hc, he⟩ | ⟨hc, he⟩ | ⟨hc, he⟩ | ⟨hc, he⟩ | ⟨hc, he⟩ | ⟨hc, he⟩ <;>
    rw [he] at h
  · have hret : op ≠ 0x00EE := by omega
    exact (control_advance _ _ (ExecOp0_control _ _ _ hret h)).2.1
  · omega
  · omega
  · omega
  · omega
  · omega
  · exact (control_advance _ _ (ExecOp6_control _ _ _ h)).2.1
  · exact (control_advance _ _ (ExecOp7_control _ _ _ h)).2.1
  · exact (control_advance _ _ (ExecOp8_control _ _ _ h)).2.1
  · omega
  · exact (ExecOpA_frame _ _ _ h).2.2.1
  · omega
  · exact (control_advance _ _ (ExecOpC_control _ _ _ _ h)).2.1
  · exact (control_advance _ _ (ExecOpD_control _ _ _ h)).2.1
  · omega
  · exact (ExecOpF_frame _ _ _ _ h).2.2.1

/-! ## Return on an empty stack -/

/-- C13 (counterexample): from `pc = 0x200`, `sp = 0` and an empty call stack the return
`0x00EE` completes with a successor state in which `pc = 2` and `sp = 65535`. -/
theorem return_empty_0x200 :
    callState.st.stack = [] ∧ callState.pc = 0x200 ∧ callState.sp = 0 ∧
    (ExecOp zeroEnv callState 0x00EE).map (fun s => (s.pc, s.sp, s.st.stack)) =
      some (2, 65535, []) := by
  decide

/-- C13 (amended): on an empty call stack the return `0x00EE` completes (the error of
`pop` is only printed): the program counter becomes 2, the zero that `pop` returns
advanced by 2, the stack pointer is decremented modulo 2^16, and everything else,
the empty call stack included, stays as it is. -/
theorem return_empty_stack (env : Env) (system : chip8) (hempty : system.st.stack = []) :
    ExecOp env system 0x00EE = some { system with pc := 2, sp := sub16 system.sp 1 } := by
  have h0 : ((0x00EE : Nat) &&& 0xF000) >>> 12 = 0 := by decide
  simp only [ExecOp, h0, if_true]
  simp [ExecOp0, FiloStack.Pop, hempty, advance, u16]

/-- Witness of C13 (amended) at `pc = 0x200`, `sp = 0`. -/
theorem return_empty_stack_witness :
    ExecOp zeroEnv callState 0x00EE =
      some { callState with pc := 2, sp := sub16 callState.sp 1 } ∧
    sub16 callState.sp 1 = 65535 :=
  ⟨return_empty_stack zeroEnv callState rfl, by decide⟩

/-! ## Words without an instruction -/

/-- C14 (counterexample): the word `0x0000` has no instruction, and from `pc = 0x200`
`ExecOp` completes on it with `pc = 0x202`. -/
theorem ExecOp_0x0000 :
    unassigned 0x0000 = true ∧ callState.pc = 0x200 ∧
    (ExecOp zeroEnv callState 0x0000).map (fun s => s.pc) = some 0x202 := by
  decide

/-- C14 (amended): on every 16-bit word without an instruction `ExecOp` completes without
a report; for `0xEXNN` other than `9E` and `A1` the state is unchanged, for the other
words (`0x0NNN` other than `00E0` and `00EE`, `0x8XY8` to `0x8XYD`, `0x8XYF`, `0xFXNN` with
a low byte no case handles) the program counter is advanced by 2 and nothing else
changes. -/
theorem ExecOp_unassigned (env : Env) (system : chip8) (op : Nat)
    (hun : unassigned op = true) :
    ExecOp env system op = some (if op / 4096 = 0xE then system else advance system) := by
  simp only [unassigned, Bool.or_eq_true, decide_eq_true_eq] at hun
  rcases hun with ((⟨hk, h1, h2⟩ | ⟨hk, hs⟩) | ⟨hk, h1, h2⟩) | ⟨hk, hs⟩
  · have hins : op / 4096 % 16 = 0 := by omega
    simp only [ExecOp, ins_eq, hins]
    simp [ExecOp0, h1, h2, hk]
  · have hins : op / 4096 % 16 = 8 := by omega
    simp only [ExecOp, ins_eq, hins]
    have hsub : op % 16 = 8 ∨ op % 16 = 9 ∨ op % 16 = 10 ∨ op % 16 = 11 ∨ op % 16 = 12 ∨
        op % 16 = 13 ∨ op % 16 = 15 := by omega
    rcases hsub with h | h | h | h | h | h | h <;> simp [ExecOp8, and_000F, h, hk]
  · have hins : op / 4096 % 16 = 14 := by omega
    simp only [ExecOp, ins_eq, hins]
    simp [ExecOpE, and_00FF, h1, h2, hk]
  · have hins : op / 4096 % 16 = 15 := by omega
    simp only [ExecOp, ins_eq, hins]
    simp only [List.mem_cons, List.mem_singleton, List.not_mem_nil, or_false, not_or] at hs
    obtain ⟨a1, a2, a3, a4, a5, a6, a7, a8, a9⟩ := hs
    simp [ExecOpF, and_00FF, a1, a2, a3, a4, a5, a6, a7, a8, a9, hk]

/-- Witness of C14 (amended): the word `0x8128` from `pc = 0x200`. -/
theorem ExecOp_unassigned_witness :
    ExecOp zeroEnv callState 0x8128 =
      some (if 0x8128 / 4096 = 0xE then callState else advance callState) ∧
    (advance callState).pc = 0x202 :=
  ⟨ExecOp_unassigned zeroEnv callState 0x8128 (by decide), by decide⟩

/-! ## Program counter -/

/-- C15: for each of the opcodes `00E0`, `6XRR`, `7XRR`, `8XY0` to `8XY7`, `8XYE`, `ANNN`,
`CXKK`, `DXYN`, `FX07`, `FX15`, `FX18`, `FX1E`, `FX29`, `FX33`, `FX55`, `FX65`, whenever
`ExecOp` completes the new program counter is the old one plus 2 modulo 2^16. -/
theorem advancing_pc (env : Env) (system : chip8) (op : Nat) (s : chip8)
    (hadv : advancing op = true) (h : ExecOp env system op = some s) :
    s.pc = (system.pc + 2) % 65536 := by
  simp only [advancing, Bool.or_eq_true, decide_eq_true_eq] at hadv
  apply ExecOp_pc env system op s _ h
  omega

/-- Witness of C15: `0xA123` completes from `pc = 0x200` and ends at `pc = 0x202`. -/
theorem advancing_pc_witness :
    ∃ s, ExecOp zeroEnv callState 0xA123 = some s ∧ s.pc = (callState.pc + 2) % 65536 ∧
      s.pc = 0x202 :=
  ⟨_, rfl, advancing_pc zeroEnv callState 0xA123 _ (by decide) rfl, by decide⟩


/-! ## Index register -/

/-- C16: from a state with `ind ≤ 0x0FFF`, every state that a sequence of completed
`ExecOp` calls reaches has `ind ≤ 0x0FFF`; this covers a single call and the states
reached from the zero valued machine. -/
theorem runOps_ind (prog : List (Env × Nat)) :
    ∀ (init s : chip8), init.ind ≤ 0x0FFF → runOps init prog = some s → s.ind ≤ 0x0FFF := by
  induction prog with
  | nil =>
    intro init s hind h
    simp only [runOps, Option.some.injEq] at h
    rw [← h]
    exact hind
  | cons step rest ih =>
    intro init s hind h
    simp only [runOps] at h
    obtain ⟨s1, h1, h2⟩ := Option.bind_eq_some.mp h
    exact ih s1 s (ExecOp_ind _ _ _ _ hind h1) h2

/-- Witness of C16: the machine that `main` sets up runs `0xAFFF` and then `0x00E0`. -/
theorem runOps_ind_witness :
    ∃ s, runOps mainMachine [(zeroEnv, 0xAFFF), (zeroEnv, 0x00E0)] = some s ∧
      s.ind ≤ 0x0FFF ∧ s.ind = 0xFFF :=
  ⟨_, rfl, runOps_ind [(zeroEnv, 0xAFFF), (zeroEnv, 0x00E0)] mainMachine _ (by decide) rfl,
    by decide⟩

/-! ## The display under `DrawSprite` -/

theorem PasteSpriteLine_only_flag (system : chip8) (vx vy img : Nat) (s : chip8)
    (hvx : vx ≤ 56) (hscr : ∀ r, r < 32 → system.screen r < 2 ^ 64)
    (h : PasteSpriteLine system vx vy img = some s) :
    s = { system with reg := s.reg } ∧ ∀ i, i ≠ 0xF → s.reg i = system.reg i := by
  by_cases hvy : vy < 32
  · rw [PasteSpriteLine_eq system vx vy img hvx hvy (hscr vy hvy)] at h
    simp only [Option.some.injEq] at h
    subst h
    refine ⟨rfl, ?_⟩
    intro i hi
    show (if _ then _ else _ : Nat → Nat) i = system.reg i
    split
    · simp [setAt, hi]
    · rfl
  · unfold PasteSpriteLine at h
    simp [hvy] at h

theorem only_flag_trans (s0 s1 s2 : chip8)
    (h1 : s1 = { s0 with reg := s1.reg } ∧ ∀ i, i ≠ 0xF → s1.reg i = s0.reg i)
    (h2 : s2 = { s1 with reg := s2.reg } ∧ ∀ i, i ≠ 0xF → s2.reg i = s1.reg i) :
    s2 = { s0 with reg := s2.reg } ∧ ∀ i, i ≠ 0xF → s2.reg i = s0.reg i := by
  obtain ⟨e1, f1⟩ := h1
  obtain ⟨e2, f2⟩ := h2
  refine ⟨?_, fun i hi => (f2 i hi).trans (f1 i hi)⟩
  cases s0
  cases s1
  cases s2
  simp only [chip8.mk.injEq] at e1 e2 ⊢
  obtain ⟨a1, a2, -, a4, a5, a6, a7, a8, a9⟩ := e1
  obtain ⟨b1, b2, -, b4, b5, b6, b7, b8, b9⟩ := e2
  exact ⟨b1.trans a1, b2.trans a2, trivial, b4.trans a4, b5.trans a5, b6.trans a6,
    b7.trans a7, b8.trans a8, b9.trans a9⟩

theorem DrawSpriteRow_only_flag (system : chip8) (x y i : Nat) (s : chip8)
    (hscr : ∀ r, r < 32 → system.screen r < 2 ^ 64)
    (h : DrawSpriteRow system x y i = some s) :
    s = { system with reg := s.reg } ∧ ∀ j, j ≠ 0xF → s.reg j = system.reg j := by
  unfold DrawSpriteRow at h
  simp only at h
  split_ifs at h with hw hm hm
  · obtain ⟨s1, h1, h2⟩ := Option.bind_eq_some.mp h
    have r1 := PasteSpriteLine_only_flag _ _ _ _ _ (by omega) hscr h1
    have hscr1 : ∀ r, r < 32 → s1.screen r < 2 ^ 64 := by
      rw [r1.1]
      exact hscr
    exact only_flag_trans _ _ _ r1 (PasteSpriteLine_only_flag _ _ _ _ _ (by omega) hscr1 h2)
  · exact PasteSpriteLine_only_flag _ _ _ _ _ (by omega) hscr h

theorem DrawSpriteLoop_only_flag (x y n : Nat) :
    ∀ (i : Nat) (system s : chip8), (∀ r, r < 32 → system.screen r < 2 ^ 64) →
      DrawSpriteLoop x y n i system = some s →
      s = { system with reg := s.reg } ∧ ∀ j, j ≠ 0xF → s.reg j = system.reg j := by
  induction n with
  | zero =>
    intro i system s _ h
    simp only [DrawSpriteLoop, Option.some.injEq] at h
    subst h
    exact ⟨rfl, fun _ _ => rfl⟩
  | succ n ih =>
    intro i system s hscr h
    simp only [DrawSpriteLoop] at h
    obtain ⟨s1, h1, h2⟩ := Option.bind_eq_some.mp h
    have r1 := DrawSpriteRow_only_flag _ _ _ _ _ hscr h1
    have hscr1 : ∀ r, r < 32 → s1.screen r < 2 ^ 64 := by
      rw [r1.1]
      exact hscr
    exact only_flag_trans _ _ _ r1 (ih _ _ _ hscr1 h2)

/-- C19: whenever `DrawSprite(x, y, h)` completes, the display after the call is the
display before the call, and the state differs from the state before the call at most
in `reg[0xF]`. -/
theorem DrawSprite_display_unchanged (system : chip8) (x y h : Nat) (s : chip8)
    (hwf : system.WF) (hdraw : DrawSprite system x y h = some s) :
    s.screen = system.screen ∧ s = { system with reg := s.reg } ∧
    ∀ i, i ≠ 0xF → s.reg i = system.reg i := by
  have r := DrawSpriteLoop_only_flag x y h 0 system s hwf.2.1 hdraw
  refine ⟨?_, r.1, r.2⟩
  rw [r.1]

/-- Witness of C19: the sprite byte `0xFF` drawn at column 60 of row 0 of a blank display. -/
theorem DrawSprite_display_unchanged_witness :
    ∃ s, DrawSprite drawState 60 0 1 = some s ∧
      (s.screen = drawState.screen ∧ s = { drawState with reg := s.reg } ∧
        ∀ i, i ≠ 0xF → s.reg i = drawState.reg i) ∧ s.reg 0xF = 1 :=
  ⟨_, rfl, DrawSprite_display_unchanged drawState 60 0 1 _ drawState_WF rfl, by decide⟩


/-! ## Stack pointer -/

/-- C20 (counterexample): from the zero valued machine (`sp = 0`, empty call stack of limit
16) the return `0x00EE` leads to `sp = 65535` with no address on the call stack; from the
machine that `main` sets up (limit 0) the call `0x2300` leads to `sp = 1` with no address
on the call stack. -/
theorem sp_differs_from_stack :
    (zeroMachine.sp = 0 ∧ zeroMachine.st.stack = [] ∧
      (runOps zeroMachine [(zeroEnv, 0x00EE)]).map (fun s => (s.sp, s.st.stack.length)) =
        some (65535, 0)) ∧
    (mainMachine.sp = 0 ∧ mainMachine.st.stack = [] ∧
      (runOps mainMachine [(zeroEnv, 0x2300)]).map (fun s => (s.sp, s.st.stack.length)) =
        some (1, 0)) := by
  decide

/-- One step that is not a stack fault keeps the limit, keeps the stack within the limit
and keeps the stack pointer equal to the stack length modulo 2^16. -/
theorem ExecOp_sp (env : Env) (system : chip8) (op : Nat) (s : chip8)
    (hsp : system.sp = system.st.stack.length % 65536)
    (hlen : system.st.stack.length = 0 ∨ (system.st.stack.length : Int) ≤ system.st.limit)
    (hff : stackFault system op = false) (h : ExecOp env system op = some s) :
    s.sp = s.st.stack.length % 65536 ∧ s.st.limit = system.st.limit ∧
    (s.st.stack.length = 0 ∨ (s.st.stack.length : Int) ≤ s.st.limit) := by
  simp only [stackFault, ins_eq, Bool.or_eq_false_iff, decide_eq_false_iff_not, not_and,
    not_not] at hff
  obtain ⟨hcall, hret⟩ := hff
  by_cases h2 : op / 4096 % 16 = 0x2
  · have hroom := hcall h2
    have he : ExecOp env system op = ExecOp2 system op := by
      simp only [ExecOp, ins_eq, h2]
      simp
    rw [he] at h
    simp only [ExecOp2, FiloStack.Push, hroom, if_true, Option.some.injEq] at h
    subst h
    simp only [List.length_append, List.length_singleton, u16, Nat.cast_add, Nat.cast_one]
    refine ⟨?_, trivial, ?_⟩
    · rw [hsp]; omega
    · right; omega
  · by_cases hr : op = 0x00EE
    · have hne := hret hr
      have hpos : system.st.stack.length > 0 := Nat.pos_of_ne_zero hne
      subst hr
      have h0 : ((0x00EE : Nat) &&& 0xF000) >>> 12 = 0 := by decide
      simp only [ExecOp, h0, if_true] at h
      simp only [ExecOp0, FiloStack.Pop, hpos, if_true, advance, Option.some.injEq] at h
      subst h
      simp only [List.length_take, sub16]
      refine ⟨?_, ?_, ?_⟩
      · simp; rw [hsp]; omega
      · simp
      · simp; omega
    · obtain ⟨e1, e2⟩ := ExecOp_stack env system op s h2 hr h
      rw [e1, e2]
      exact ⟨hsp, rfl, hlen⟩

theorem runOps_sp (prog : List (Env × Nat)) :
    ∀ (init s : chip8), init.sp = init.st.stack.length % 65536 →
      (init.st.stack.length = 0 ∨ (init.st.stack.length : Int) ≤ init.st.limit) →
      faultFree init prog = true → runOps init prog = some s →
      s.sp = s.st.stack.length % 65536 ∧ s.st.limit = init.st.limit ∧
      (s.st.stack.length = 0 ∨ (s.st.stack.length : Int) ≤ s.st.limit) := by
  induction prog with
  | nil =>
    intro init s hsp hlen _ h
    simp only [runOps, Option.some.injEq] at h
    subst h
    exact ⟨hsp, rfl, hlen⟩
  | cons step rest ih =>
    intro init s hsp hlen hff h
    simp only [runOps] at h
    obtain ⟨s1, h1, h2⟩ := Option.bind_eq_some.mp h
    simp only [faultFree, h1, Bool.and_eq_true, Bool.not_eq_true'] at hff
    obtain ⟨r1, r2, r3⟩ := ExecOp_sp _ _ _ _ hsp hlen hff.1 h1
    obtain ⟨q1, q2, q3⟩ := ih s1 s r1 r3 hff.2 h2
    exact ⟨q1, q2.trans r2, q3⟩

/-- C20 (amended): in every state reached from an initial machine with `sp = 0` and an
empty call stack by a sequence of completed `ExecOp` calls none of which is a call on a
full call stack or a return on an empty call stack, the stack pointer is the number of
return addresses on the call stack modulo 2^16, and is that number itself when the limit
of the stack is at most 65535. -/
theorem sp_counts_stack (init : chip8) (prog : List (Env × Nat)) (s : chip8)
    (hsp : init.sp = 0) (hst : init.st.stack = []) (hff : faultFree init prog = true)
    (h : runOps init prog = some s) :
    s.sp = s.st.stack.length % 65536 ∧
    (init.st.limit ≤ 65535 → s.sp = s.st.stack.length) := by
  obtain ⟨q1, q2, q3⟩ := runOps_sp prog init s (by simp [hsp, hst]) (by simp [hst]) hff h
  refine ⟨q1, ?_⟩
  intro hl
  rw [q1]
  omega

/-- Witness of C20 (amended): from `pc = 0x200` the run call `0x2300`, `0xA123`, return
`0x00EE`, call `0x2400` ends with one return address on the call stack and `sp = 1`. -/
theorem sp_counts_stack_witness :
    ∃ s, runOps callState
        [(zeroEnv, 0x2300), (zeroEnv, 0xA123), (zeroEnv, 0x00EE), (zeroEnv, 0x2400)] = some s ∧
      (s.sp = s.st.stack.length % 65536 ∧
        (callState.st.limit ≤ 65535 → s.sp = s.st.stack.length)) ∧
      s.sp = 1 ∧ s.st.stack = [0x202] :=
  ⟨_, rfl,
    sp_counts_stack callState
      [(zeroEnv, 0x2300), (zeroEnv, 0xA123), (zeroEnv, 0x00EE), (zeroEnv, 0x2400)] _
      rfl rfl (by decide) rfl,
    by decide, by decide⟩

end Gochip8
